import Mathlib

/-!
Shallow embedding of the ytschedule stream-orchestration core:
`src/backend/utils/streamer.js` (Streamer class: startStream, startUrlStream,
stopStream, stopExternalStream, the ffmpeg `end`/`error` handlers and
`buildOutputUrl`) and the cron tick in `src/backend/server.js` (`startCron`).

Modelling conventions:
- Timestamps (`new Date()`, `Date.now()`) are `Nat`; a World carries `now`.
- The Mongo collections are lists of documents.  Mongo guarantees `_id`
  uniqueness, so a `findByIdAndUpdate` / dirty-path `save()` is modelled as a
  map that rewrites the documents carrying that id.
- JS `undefined`-or-string fields are `Option String`; the `a || b` fallback
  on such fields is `orElseStr`.
- `fs.existsSync(video.filepath)` is folded into the document as the field
  `filepathExists`.
- `command.run()` throwing synchronously is modelled by the `spawnFails` /
  `urlSpawnFails` oracles carried in the World; all other failure paths
  (already-active, not-found, missing file, invalid target) are in-model.
- ffmpeg side effects (signals, transcoding) and the best-effort Supabase
  mirror calls (every one is wrapped in try/catch and swallowed in the
  source) have no observable effect on the modelled state and are omitted.
- The asynchronous `end` / `error` ffmpeg events are separate transition
  functions (`endHandler`, `errorHandler`) on the World.
-/

/-- Status enum of Video and ExternalJob documents. -/
inductive VStatus
  | library
  | scheduled
  | streaming
  | completed
  | failed
  | cancelled
deriving DecidableEq, Repr

/-- Status enum of Playlist documents. -/
inductive PStatus
  | scheduled
  | running
  | completed
  | cancelled
  | failed
deriving DecidableEq, Repr

/-- Video document (src/backend/models/Video.js), restricted to the fields the
orchestration core reads or writes. -/
structure VideoDoc where
  vid : String
  filepathExists : Bool
  duration : Option Nat := none
  scheduleTime : Option Nat
  stopTime : Option Nat := none
  playlistId : Option String := none
  rtmpUrl : Option String := none
  streamKey : Option String := none
  status : VStatus
  progress : Nat := 0
  errorMessage : Option String := none
  streamStartedAt : Option Nat := none
  streamEndedAt : Option Nat := none
  usedRtmpUrl : Option String := none
  usedStreamKey : Option String := none
  lastOutputUrl : Option String := none
  loop : Bool := false
deriving DecidableEq, Repr

/-- Playlist document (the PlaylistSchema model file). -/
structure PlaylistDoc where
  pid : String
  videos : List String
  scheduleTime : Nat
  rtmpUrl : Option String := none
  streamKey : Option String := none
  status : PStatus
  currentIndex : Nat
  streamStartedAt : Option Nat := none
  streamEndedAt : Option Nat := none
  loop : Bool := false
  updatedAt : Nat := 0
deriving DecidableEq, Repr

/-- ExternalJob document (src/backend/models/ExternalJob.js). -/
structure JobDoc where
  jid : String
  sourceUrl : String
  rtmpUrl : String
  streamKey : String
  scheduleTime : Nat
  stopTime : Option Nat := none
  status : VStatus
  progress : Nat := 0
  streamId : Option String := none
  startedAt : Option Nat := none
  endedAt : Option Nat := none
  lastOutputUrl : Option String := none
  errorMessage : Option String := none
deriving DecidableEq, Repr

/-- One value of the `activeStreams` Map in the Streamer class. -/
structure StreamEntry where
  startedAt : Nat
  progress : Nat
  lastUpdateMs : Nat
  stopped : Bool
  outputUrl : String
  external : Bool := false
  sourceUrl : Option String := none
deriving DecidableEq, Repr

/-- World state: the three persisted collections, the in-memory active-stream
registry (insertion-ordered, as a JS Map is), the clock, and the two oracles
describing which ffmpeg spawns would throw synchronously. -/
structure World where
  videos : List VideoDoc
  playlists : List PlaylistDoc
  jobs : List JobDoc
  active : List (String × StreamEntry)
  now : Nat
  spawnFails : List String := []
  urlSpawnFails : List String := []
deriving DecidableEq, Repr

/-! Registry primitives, mirroring JS `Map.get` / `Map.set` / `Map.delete`. -/

def regGet : List (String × StreamEntry) → String → Option StreamEntry
  | [], _ => none
  | p :: rest, id => if p.1 == id then some p.2 else regGet rest id

def regSet : List (String × StreamEntry) → String → StreamEntry → List (String × StreamEntry)
  | [], id, e => [(id, e)]
  | p :: rest, id, e => if p.1 == id then (id, e) :: rest else p :: regSet rest id e

def regDel (a : List (String × StreamEntry)) (id : String) : List (String × StreamEntry) :=
  a.filter (fun p => !(p.1 == id))

/-! Document-store primitives.  Mongo `_id`s are unique, so a targeted update
is a map over the collection rewriting the matching documents. -/

def findVideo (w : World) (id : String) : Option VideoDoc :=
  w.videos.find? (fun v => v.vid == id)

def updVideo (w : World) (id : String) (f : VideoDoc → VideoDoc) : World :=
  { w with videos := w.videos.map (fun v => if v.vid == id then f v else v) }

def findPlaylist (w : World) (id : String) : Option PlaylistDoc :=
  w.playlists.find? (fun pl => pl.pid == id)

def updPlaylist (w : World) (id : String) (f : PlaylistDoc → PlaylistDoc) : World :=
  { w with playlists := w.playlists.map (fun pl => if pl.pid == id then f pl else pl) }

def updJob (w : World) (id : String) (f : JobDoc → JobDoc) : World :=
  { w with jobs := w.jobs.map (fun j => if j.jid == id then f j else j) }

/-- JS `a || b` for optional string fields. -/
def orElseStr : Option String → Option String → Option String
  | some x, _ => some x
  | none, b => b

/-! String helpers, written over the character list so that concrete runs
evaluate; they mirror the JS `toLowerCase`, `trim` and `endsWith` used by the
streamer. -/

def lowerData (s : String) : List Char := s.data.map Char.toLower

/-- Test of the regex `^rtmps?:\/\//i` from buildOutputUrl. -/
def isRtmpScheme (s : String) : Bool :=
  "rtmp://".data.isPrefixOf (lowerData s) || "rtmps://".data.isPrefixOf (lowerData s)

/-- Characters of `s.trim()`. -/
def trimData (s : String) : List Char :=
  ((s.data.dropWhile Char.isWhitespace).reverse.dropWhile Char.isWhitespace).reverse

/-- JS `s.trim()`. -/
def trimStr (s : String) : String := String.mk (trimData s)

/-- JS `s.endsWith('/')`. -/
def endsWithSlash (s : String) : Bool := s.data.getLast? == some '/'

/-- Embedding of `buildOutputUrl` (streamer.js lines 62-70).  A `none`
argument models a non-string (`undefined`) value, which fails the
`typeof x !== 'string'` guards. -/
def buildOutputUrl (rtmpUrl streamKey : Option String) : Except String String :=
  match rtmpUrl with
  | none => .error "Invalid RTMP URL"
  | some ru =>
    if isRtmpScheme ru then
      match streamKey with
      | none => .error "Invalid stream key"
      | some sk =>
        if (trimData sk).length < 8 then .error "Invalid stream key"
        else .ok (if endsWithSlash ru then ru ++ sk else ru ++ "/" ++ sk)
    else .error "Invalid RTMP URL"

/-! The Streamer operations (src/backend/utils/streamer.js). -/

/-- Backfill of `scheduleTime` done by startStream when the video had none
(streamer.js lines 281-284). -/
def stampScheduleTime (w : World) (id : String) : World :=
  updVideo w id (fun x => { x with scheduleTime := some w.now })

/-- State changes of startStream's `on start` callback (streamer.js lines
305-328): persist `streaming` plus the RTMP details actually used, and insert
the registry entry. -/
def applyStartSuccess (w : World) (id : String) (uR uK : Option String) (out : String) : World :=
  let w2 := updVideo w id (fun x => { x with
    status := VStatus.streaming, streamStartedAt := some w.now, progress := 0,
    usedRtmpUrl := uR, usedStreamKey := uK, lastOutputUrl := some out })
  let entry : StreamEntry := { startedAt := w.now, progress := 0, lastUpdateMs := w.now,
                               stopped := false, outputUrl := out }
  { w2 with active := regSet w2.active id entry }

/-- Spawn step of startStream: `command.run()` (streamer.js lines 412-417)
either throws synchronously (rejecting the promise with the world as mutated
so far) or fires the `start` callback. -/
def startRun (w : World) (id : String) (uR uK : Option String) (out : String) :
    World × Except String Unit :=
  if id ∈ w.spawnFails then (w, .error "ffmpeg failed to start")
  else (applyStartSuccess w id uR uK out, .ok ())

/-- Embedding of `Streamer.startStream` (streamer.js lines 257-419) up to the
point the returned promise settles: the already-active guard, record load,
file-existence check, target validation, scheduleTime backfill, then spawn.
The `opts.playlistId` / loop flags only alter the ffmpeg command line, which
is outside the modelled state. -/
def startStream (w : World) (videoId : String) (oR oK : Option String) :
    World × Except String Unit :=
  if (regGet w.active videoId).isSome then
    (w, .error ("Stream already active for video " ++ videoId))
  else
    match findVideo w videoId with
    | none => (w, .error "Video not found")
    | some v =>
      if v.filepathExists then
        match buildOutputUrl (orElseStr oR v.rtmpUrl) (orElseStr oK v.streamKey) with
        | .error e => (w, .error e)
        | .ok out =>
          startRun (if v.scheduleTime = none then stampScheduleTime w videoId else w)
            videoId (orElseStr oR v.rtmpUrl) (orElseStr oK v.streamKey) out
      else (w, .error "Video file not found on disk")

/-- Registry insertion done by startUrlStream's `on start` callback
(streamer.js lines 156-175). -/
def applyUrlStartSuccess (w : World) (sid : String) (url out : String) : World :=
  let entry : StreamEntry := { startedAt := w.now, progress := 0, lastUpdateMs := w.now,
                               stopped := false, outputUrl := out, external := true,
                               sourceUrl := some url }
  { w with active := regSet w.active sid entry }

/-- Embedding of `Streamer.startUrlStream` (streamer.js lines 86-219) up to
promise settlement.  The YouTube URL-resolution chain only changes which input
is handed to ffmpeg, not the modelled state, so it is omitted; the generated
`url:`-prefixed streamId is made deterministic from the clock. -/
def startUrlStream (w : World) (sourceUrl : Option String) (oR oK : Option String) :
    World × Except String String :=
  let url := trimStr (sourceUrl.getD "")
  if url = "" then (w, .error "sourceUrl is required")
  else
    match buildOutputUrl oR oK with
    | .error e => (w, .error e)
    | .ok out =>
      if url ∈ w.urlSpawnFails then (w, .error "ffmpeg failed to start")
      else
        let sid := "url:" ++ toString w.now
        (applyUrlStartSuccess w sid url out, .ok sid)

/-- Embedding of `Streamer.stopStream` (streamer.js lines 421-449).
`writeOk = false` models the persisted cancelled-status write
(`Video.findByIdAndUpdate`) throwing, which the catch turns into `false`;
the signal sends are wrapped in their own swallowed try/catch in the source
and have no modelled effect. -/
def stopStream (w : World) (videoId : String) (writeOk : Bool) : World × Bool :=
  match regGet w.active videoId with
  | none => (w, false)
  | some e =>
    let w1 := { w with active := regSet w.active videoId { e with stopped := true } }
    if writeOk then
      let w2 := updVideo w1 videoId
        (fun v => { v with status := VStatus.cancelled, streamEndedAt := some w.now })
      ({ w2 with active := regDel w2.active videoId }, true)
    else (w1, false)

/-- Embedding of `Streamer.stopExternalStream` (streamer.js lines 221-239):
flag, signal, and drop the registry entry; no persisted write. -/
def stopExternalStream (w : World) (streamId : String) : World × Bool :=
  match regGet w.active streamId with
  | none => (w, false)
  | some e =>
    let w1 := { w with active := regSet w.active streamId { e with stopped := true } }
    ({ w1 with active := regDel w1.active streamId }, true)

/-- Embedding of startStream's ffmpeg `end` handler (streamer.js lines
362-388): read the registry entry, drop it, re-check the record exists, then
write `cancelled` if the entry was flagged stopped, else `completed` with
progress 100; either way stamp the end time. -/
def endHandler (w : World) (id : String) : World :=
  match regGet w.active id, findVideo w id with
  | _, none => { w with active := regDel w.active id }
  | some e, some _ =>
    if e.stopped then
      updVideo { w with active := regDel w.active id } id (fun v => { v with
        status := VStatus.cancelled, streamEndedAt := some w.now })
    else
      updVideo { w with active := regDel w.active id } id (fun v => { v with
        status := VStatus.completed, progress := 100, streamEndedAt := some w.now })
  | none, some _ =>
    updVideo { w with active := regDel w.active id } id (fun v => { v with
      status := VStatus.completed, progress := 100, streamEndedAt := some w.now })

/-- Embedding of startStream's ffmpeg `error` handler (streamer.js lines
389-410): drop the registry entry, re-check the record exists, and if so mark
it failed with the captured message. -/
def errorHandler (w : World) (id : String) (msg : String) : World :=
  match findVideo w id with
  | none => { w with active := regDel w.active id }
  | some _ =>
    updVideo { w with active := regDel w.active id } id (fun v => { v with
      status := VStatus.failed, errorMessage := some msg, streamEndedAt := some w.now })

/-! Scheduling loop (startCron in src/backend/server.js, lines 176-340).
Mongo `findOne(...).sort({key: 1})` is the first document with minimal key
(insertion order breaks ties). -/

/-- First element with minimal key, ties going to the earlier element. -/
def firstMinBy {α : Type} (key : α → Nat) : List α → Option α
  | [] => none
  | x :: xs =>
    match firstMinBy key xs with
    | none => some x
    | some y => if key x ≤ key y then some x else some y

/-- Cron step 1 (server.js lines 182-191): stop every `streaming` video whose
stopTime has arrived. -/
def videoStopSweep (w : World) : World :=
  (w.videos.filter (fun v => decide (v.status = VStatus.streaming) &&
      (match v.stopTime with | some t => decide (t ≤ w.now) | none => false))).foldl
    (fun acc v => (stopStream acc v.vid true).1) w

/-- Cron step 1b (server.js lines 193-204): stop every `streaming` external
job whose stopTime has arrived, when it has a streamId. -/
def jobStopSweep (w : World) : World :=
  (w.jobs.filter (fun j => decide (j.status = VStatus.streaming) &&
      (match j.stopTime with | some t => decide (t ≤ w.now) | none => false))).foldl
    (fun acc j => match j.streamId with
      | some sid => (stopExternalStream acc sid).1
      | none => acc) w

/-- Resolution of one running playlist in cron step 1a (server.js lines
210-224): when the cursor has reached the end, loop back to index 0 or mark
the playlist completed with an end timestamp. -/
def sweepOne (now : Nat) (pl : PlaylistDoc) : PlaylistDoc :=
  if pl.status = PStatus.running ∧ pl.videos.length ≤ pl.currentIndex then
    if pl.loop then { pl with currentIndex := 0 }
    else { pl with status := PStatus.completed, streamEndedAt := some now }
  else pl

/-- Cron step 1a (server.js lines 206-226) without its zero-active gate: the
source iterates a snapshot of the `running` playlists and applies one targeted
update per finished playlist; with unique `_id`s that is this per-document
map. -/
def playlistCompletionSweep (w : World) : World :=
  { w with playlists := w.playlists.map (sweepOne w.now) }

/-- Query of cron step 2a: `findOne({status:'running'}).sort({updatedAt:1})`. -/
def runningPlaylistSel (w : World) : Option PlaylistDoc :=
  firstMinBy (fun pl => pl.updatedAt)
    (w.playlists.filter (fun pl => decide (pl.status = PStatus.running)))

/-- Query of cron step 2b:
`findOne({status:'scheduled', scheduleTime: {$lte: now}}).sort({scheduleTime:1})`. -/
def duePlaylistSel (w : World) : Option PlaylistDoc :=
  firstMinBy (fun pl => pl.scheduleTime)
    (w.playlists.filter
      (fun pl => decide (pl.status = PStatus.scheduled ∧ pl.scheduleTime ≤ w.now)))

/-- Query of cron step 2c: next due scheduled video not attached to a
playlist, earliest scheduleTime first. -/
def dueVideoSel (w : World) : Option VideoDoc :=
  firstMinBy (fun v => v.scheduleTime.getD 0)
    (w.videos.filter (fun v => decide (v.status = VStatus.scheduled) &&
      (match v.scheduleTime with | some t => decide (t ≤ w.now) | none => false) &&
      decide (v.playlistId = none)))

/-- Query of cron step 2d: next due scheduled external URL job. -/
def dueJobSel (w : World) : Option JobDoc :=
  firstMinBy (fun j => j.scheduleTime)
    (w.jobs.filter (fun j => decide (j.status = VStatus.scheduled ∧ j.scheduleTime ≤ w.now)))

/-- Cron step 2d (server.js lines 288-333): start the next due external URL
job; on success persist `streaming` plus the streamId and output URL, on
failure mark the job failed with the captured reason.  The second component
lists the streams started by the admission step. -/
def admission2d (w : World) : World × List String :=
  match dueJobSel w with
  | none => (w, [])
  | some j =>
    match startUrlStream w (some j.sourceUrl) (some j.rtmpUrl) (some j.streamKey) with
    | (w1, .ok sid) =>
      let out := if endsWithSlash j.rtmpUrl then j.rtmpUrl ++ j.streamKey
                 else j.rtmpUrl ++ "/" ++ j.streamKey
      (updJob w1 j.jid (fun x => { x with
        status := VStatus.streaming, streamId := some sid,
        startedAt := some w.now, lastOutputUrl := some out }), [sid])
    | (w1, .error msg) =>
      (updJob w1 j.jid (fun x => { x with
        status := VStatus.failed, errorMessage := some msg, endedAt := some w.now }), [])

/-- Cron step 2c (server.js lines 272-287): start the next due scheduled
stand-alone video; on failure mark that video failed with the captured reason
and end the tick (step 2d runs only when no due video was found). -/
def admission2c (w : World) : World × List String :=
  match dueVideoSel w with
  | none => admission2d w
  | some v =>
    match startStream w v.vid none none with
    | (w1, .ok _) => (w1, [v.vid])
    | (w1, .error msg) =>
      (updVideo w1 v.vid (fun x => { x with
        status := VStatus.failed, errorMessage := some msg, streamEndedAt := some w.now }), [])

/-- Promotion write of cron step 2b (server.js lines 252-254): netted dirty
fields of `duePlaylist.save()` after setting status and start time. -/
def markPlaylistRunning (w : World) (pl : PlaylistDoc) : World :=
  updPlaylist w pl.pid (fun p => { p with
    status := PStatus.running, streamStartedAt := some w.now, updatedAt := w.now })

/-- First item picked by cron step 2b:
`videos[duePlaylist.currentIndex] || videos[0]`. -/
def firstItemId (pl : PlaylistDoc) : String :=
  pl.videos.getD pl.currentIndex (pl.videos.getD 0 "")

/-- Cron step 2b (server.js lines 249-270): promote the earliest due scheduled
playlist to `running`, then start its first item and set the cursor to 1; on
a failed start (or an empty item list) control falls through to step 2c. -/
def admission2b (w : World) : World × List String :=
  match duePlaylistSel w with
  | none => admission2c w
  | some pl =>
    let w1 := markPlaylistRunning w pl
    if 0 < pl.videos.length then
      match startStream w1 (firstItemId pl) pl.rtmpUrl pl.streamKey with
      | (w2, .ok _) =>
        (updPlaylist w2 pl.pid (fun p => { p with currentIndex := 1, updatedAt := w2.now }),
         [firstItemId pl])
      | (w2, .error _) => admission2c w2
    else admission2c w1

/-- Cron step 2a plus its fallthrough (server.js lines 232-247): start the
longest-idle running playlist's next item and advance its cursor; when the
start throws, the catch only logs and control falls through to step 2b. -/
def admission (w : World) : World × List String :=
  match runningPlaylistSel w with
  | some pl =>
    if pl.currentIndex < pl.videos.length then
      let nextId := pl.videos.getD pl.currentIndex ""
      match startStream w nextId pl.rtmpUrl pl.streamKey with
      | (w1, .ok _) =>
        (updPlaylist w1 pl.pid (fun p => { p with
          currentIndex := pl.currentIndex + 1, updatedAt := w1.now }), [nextId])
      | (w1, .error _) => admission2b w1
    else admission2b w
  | none => admission2b w

/-- One cron tick (server.js lines 178-337): the stop sweeps, then the
playlist-completion sweep gated on a zero-active registry, then the admission
chain gated the same way.  The second component lists the streams the
admission step started. -/
def tick (w : World) : World × List String :=
  let w1 := videoStopSweep w
  let w2 := jobStopSweep w1
  let w3 := if w2.active.length = 0 then playlistCompletionSweep w2 else w2
  if w3.active.length = 0 then admission w3 else (w3, [])

/-- PlaylistCursor invariant of the data model: every playlist's cursor stays
between 0 and the length of its item list (the lower bound is inherent in the
Nat representation, matching the schema's `min: 0` validation). -/
def CursorInv (w : World) : Prop :=
  ∀ pl ∈ w.playlists, pl.currentIndex ≤ pl.videos.length

/-! Concrete states used to evaluate the model, drawn from the scenarios the
spec describes (an active file stream, a running playlist mid-item, due
candidates, and an expired stop time). -/

/-- An active file-backed stream's video record. -/
def exStopVideo : VideoDoc :=
  { vid := "v1"
    filepathExists := true
    scheduleTime := some 5
    status := VStatus.streaming
    progress := 40
    rtmpUrl := some "rtmp://a.example/live"
    streamKey := some "abcdefgh" }

/-- Registry entry of that stream, not yet stopped. -/
def exStopEntry : StreamEntry :=
  { startedAt := 5
    progress := 40
    lastUpdateMs := 5
    stopped := false
    outputUrl := "rtmp://a.example/live/abcdefgh" }

/-- World with exactly that one active stream. -/
def exStopW : World :=
  { videos := [exStopVideo], playlists := [], jobs := [], active := [("v1", exStopEntry)],
    now := 10 }

/-- World where the stream is active but its persisted record was deleted. -/
def exNoRecW : World :=
  { videos := [], playlists := [], jobs := [], active := [("v1", exStopEntry)], now := 10 }

/-- Playlist item whose backing file is missing, so its launch throws. -/
def exItemVideo : VideoDoc :=
  { vid := "v1"
    filepathExists := false
    scheduleTime := some 1
    status := VStatus.scheduled
    playlistId := some "p"
    rtmpUrl := some "rtmp://a.example/live"
    streamKey := some "abcdefgh" }

/-- Stand-alone due scheduled video that is startable. -/
def exDueVideo : VideoDoc :=
  { vid := "v2"
    filepathExists := true
    scheduleTime := some 4
    status := VStatus.scheduled
    rtmpUrl := some "rtmp://a.example/live"
    streamKey := some "abcdefgh" }

/-- Running playlist whose next item is the broken one. -/
def exRunP : PlaylistDoc :=
  { pid := "p"
    videos := ["v1"]
    scheduleTime := 1
    status := PStatus.running
    currentIndex := 0
    updatedAt := 2 }

/-- World for the same-tick fallthrough scenario: the running playlist's item
launch throws, and a due stand-alone video is also waiting. -/
def exFallthroughW : World :=
  { videos := [exItemVideo, exDueVideo], playlists := [exRunP], jobs := [], active := [],
    now := 10 }

/-- Streaming video whose planned stop time has elapsed. -/
def exOldVideo : VideoDoc :=
  { vid := "old"
    filepathExists := true
    scheduleTime := some 1
    stopTime := some 3
    status := VStatus.streaming
    rtmpUrl := some "rtmp://a.example/live"
    streamKey := some "abcdefgh" }

/-- Due scheduled video waiting to be admitted in the same tick. -/
def exNewVideo : VideoDoc :=
  { vid := "new"
    filepathExists := true
    scheduleTime := some 4
    status := VStatus.scheduled
    rtmpUrl := some "rtmp://b.example/live"
    streamKey := some "key12345" }

/-- Registry entry of the expired stream. -/
def exOldEntry : StreamEntry :=
  { startedAt := 1
    progress := 10
    lastUpdateMs := 1
    stopped := false
    outputUrl := "rtmp://a.example/live/abcdefgh" }

/-- World in which one tick must both stop the expired stream and admit the
due one. -/
def exStopStartW : World :=
  { videos := [exOldVideo, exNewVideo], playlists := [], jobs := [],
    active := [("old", exOldEntry)], now := 10 }

/-- Video whose stored stream key is too short. -/
def exBadKeyVideo : VideoDoc :=
  { vid := "vb"
    filepathExists := true
    scheduleTime := some 1
    status := VStatus.scheduled
    rtmpUrl := some "rtmp://a.example/live"
    streamKey := some "short" }

/-- World holding only the bad-key video, nothing active. -/
def exBadKeyW : World :=
  { videos := [exBadKeyVideo], playlists := [], jobs := [], active := [], now := 10 }

/-- Looping playlist whose cursor has reached the end of its two items. -/
def exLoopDoneP : PlaylistDoc :=
  { pid := "pl"
    videos := ["a", "b"]
    scheduleTime := 1
    status := PStatus.running
    currentIndex := 2
    loop := true
    updatedAt := 3 }

/-- World for the completion sweep with zero active jobs. -/
def exSweepW : World :=
  { videos := [], playlists := [exLoopDoneP], jobs := [], active := [], now := 10 }

/-- World whose only admission candidate is a due stand-alone video with a
missing backing file. -/
def exDueBadW : World :=
  { videos := [{ vid := "v3"
                 filepathExists := false
                 scheduleTime := some 2
                 status := VStatus.scheduled
                 rtmpUrl := some "rtmp://a.example/live"
                 streamKey := some "abcdefgh" }],
    playlists := [], jobs := [], active := [], now := 10 }

/-! General lemmas about the registry and the document-store primitives. -/

theorem regGet_regSet_self (a : List (String × StreamEntry)) (id : String) (e : StreamEntry) :
    regGet (regSet a id e) id = some e := by
  induction a with
  | nil => simp [regSet, regGet]
  | cons p rest ih =>
    by_cases h : (p.1 == id) = true
    · simp [regSet, regGet, h]
    · simp only [regSet, regGet, h]
      simp [h, ih]

theorem regGet_regDel_self (a : List (String × StreamEntry)) (id : String) :
    regGet (regDel a id) id = none := by
  induction a with
  | nil => simp [regDel, regGet]
  | cons p rest ih =>
    by_cases h : (p.1 == id) = true
    · simpa [regDel, List.filter, h] using ih
    · simp only [regDel, List.filter, h] at ih ⊢
      simp [regGet, h, ih]

theorem findVideo_set_active (w : World) (a : List (String × StreamEntry)) (id : String) :
    findVideo { w with active := a } id = findVideo w id := rfl

theorem find_map_upd (l : List VideoDoc) (id : String) (f : VideoDoc → VideoDoc)
    (hf : ∀ v, (f v).vid = v.vid) :
    (l.map (fun v => if v.vid == id then f v else v)).find? (fun v => v.vid == id) =
      (l.find? (fun v => v.vid == id)).map f := by
  induction l with
  | nil => simp
  | cons v rest ih =>
    by_cases h : (v.vid == id) = true
    · have hfv : ((f v).vid == id) = true := by rw [hf v]; exact h
      rw [List.map_cons, if_pos h, List.find?_cons, List.find?_cons, hfv, h]
      rfl
    · have h' : (v.vid == id) = false := by simpa using h
      rw [List.map_cons, if_neg h, List.find?_cons, List.find?_cons, h']
      simpa only [cond_false] using ih

theorem findVideo_updVideo (w : World) (id : String) (f : VideoDoc → VideoDoc)
    (hf : ∀ v, (f v).vid = v.vid) :
    findVideo (updVideo w id f) id = (findVideo w id).map f := by
  unfold findVideo updVideo
  exact find_map_upd w.videos id f hf

/-- C3: a startStream call on an id already present in the registry fails
with the already-active error and leaves the whole world — registry and
persisted records — untouched, whatever the video record or filesystem state
is; in particular no lookup result, file check, spawn, registry insertion or
record write is observable. -/
theorem startStream_alreadyActive (w : World) (id : String) (oR oK : Option String)
    (e : StreamEntry) (h : regGet w.active id = some e) :
    startStream w id oR oK = (w, Except.error ("Stream already active for video " ++ id)) := by
  unfold startStream
  rw [h]
  rfl

/-- Witness: the already-active world rejects a second start unchanged. -/
theorem startStream_alreadyActive_wit :
    startStream exStopW "v1" none none =
      (exStopW, Except.error "Stream already active for video v1") :=
  startStream_alreadyActive exStopW "v1" none none exStopEntry (by rfl)

/-- C10: when the persisted cancelled-status write inside stopStream throws,
stopStream returns false and the id is still present in the registry, its
stopped flag already set to true. -/
theorem stopStream_write_failure (w : World) (id : String) (e : StreamEntry)
    (h : regGet w.active id = some e) :
    stopStream w id false =
      ({ w with active := regSet w.active id { e with stopped := true } }, false) ∧
    regGet (stopStream w id false).1.active id = some { e with stopped := true } := by
  have h1 : stopStream w id false =
      ({ w with active := regSet w.active id { e with stopped := true } }, false) := by
    unfold stopStream
    rw [h]
    rfl
  exact ⟨h1, by rw [h1]; exact regGet_regSet_self w.active id { e with stopped := true }⟩

/-- Witness: the failing write leaves the stream registered and flagged. -/
theorem stopStream_write_failure_wit :
    stopStream exStopW "v1" false =
      ({ exStopW with
          active := regSet exStopW.active "v1" { exStopEntry with stopped := true } }, false) :=
  (stopStream_write_failure exStopW "v1" exStopEntry (by rfl)).1

/-- C7: when the persisted record is gone, the end and error handlers only
drop the registry entry; the video collection is untouched (no terminal
write), and both handlers are total functions, so they return normally. -/
theorem terminal_handlers_skip_missing_record (w : World) (id msg : String)
    (h : findVideo w id = none) :
    endHandler w id = { w with active := regDel w.active id } ∧
    errorHandler w id msg = { w with active := regDel w.active id } := by
  constructor
  · unfold endHandler
    rw [h]
    cases regGet w.active id <;> rfl
  · unfold errorHandler
    rw [h]

/-- Witness: with the record deleted, the end handler writes nothing. -/
theorem terminal_handlers_skip_missing_record_wit :
    endHandler exNoRecW "v1" = { exNoRecW with active := regDel exNoRecW.active "v1" } :=
  (terminal_handlers_skip_missing_record exNoRecW "v1" "boom" (by rfl)).1

/-- C6: a natural end (registry entry present with stopped = false) on an
existing record persists status completed, progress 100 and an end timestamp,
and removes the id from the registry. -/
theorem endHandler_natural_end (w : World) (id : String) (e : StreamEntry) (v : VideoDoc)
    (hreg : regGet w.active id = some e) (hstop : e.stopped = false)
    (hv : findVideo w id = some v) :
    findVideo (endHandler w id) id =
      some { v with status := VStatus.completed, progress := 100,
                    streamEndedAt := some w.now } ∧
    regGet (endHandler w id).active id = none := by
  have hw : endHandler w id =
      updVideo { w with active := regDel w.active id } id
        (fun x => { x with status := VStatus.completed, progress := 100,
                           streamEndedAt := some w.now }) := by
    unfold endHandler
    rw [hreg, hv]
    show (if e.stopped = true then _ else _) = _
    rw [hstop]
    rfl
  constructor
  · rw [hw, findVideo_updVideo { w with active := regDel w.active id } id
        (fun x => { x with status := VStatus.completed, progress := 100,
                           streamEndedAt := some w.now }) (fun x => rfl),
        findVideo_set_active, hv]
    rfl
  · rw [hw]
    exact regGet_regDel_self w.active id

/-- Witness: the active, unstopped example stream completes naturally. -/
theorem endHandler_natural_end_wit :
    findVideo (endHandler exStopW "v1") "v1" =
      some { exStopVideo with status := VStatus.completed, progress := 100,
                              streamEndedAt := some 10 } :=
  (endHandler_natural_end exStopW "v1" exStopEntry exStopVideo (by rfl) (by rfl) (by rfl)).1

/-- C1 (failing trace): after stopStream succeeds — persisting `cancelled`
and deleting the registry entry — a later ffmpeg end event finds no entry,
so the `entry && entry.stopped` guard fails and the end handler overwrites
the record with status completed and progress 100.  The stopped flag does
not survive to the end event, contradicting the claimed suppression. -/
theorem stop_then_end_overwrites_cancelled :
    (stopStream exStopW "v1" true).2 = true ∧
    ((findVideo (stopStream exStopW "v1" true).1 "v1").map VideoDoc.status =
      some VStatus.cancelled) ∧
    ((findVideo (endHandler (stopStream exStopW "v1" true).1 "v1") "v1").map VideoDoc.status =
      some VStatus.completed) ∧
    ((findVideo (endHandler (stopStream exStopW "v1" true).1 "v1") "v1").map VideoDoc.progress =
      some 100) :=
  ⟨rfl, rfl, rfl, rfl⟩

/-- C8: buildOutputUrl succeeds exactly when the RTMP URL is a string with an
rtmp:// or rtmps:// scheme (case-insensitive) and the stream key is a string
whose trimmed length is at least 8; a success returns the URL and key joined
through the single slash separator already present at the URL's end or
inserted between them; and both startStream and startUrlStream surface
exactly this validation error without admitting anything (world unchanged)
when the effective target is invalid. -/
theorem buildOutputUrl_validation :
    (∀ ru sk : Option String,
      (∃ out, buildOutputUrl ru sk = Except.ok out) ↔
        ((∃ r, ru = some r ∧ isRtmpScheme r = true) ∧
         (∃ k, sk = some k ∧ 8 ≤ (trimData k).length))) ∧
    (∀ r k : String, isRtmpScheme r = true → 8 ≤ (trimData k).length →
      buildOutputUrl (some r) (some k) =
        Except.ok (if endsWithSlash r then r ++ k else r ++ "/" ++ k)) ∧
    (∀ (w : World) (id : String) (oR oK : Option String) (v : VideoDoc) (e : String),
      regGet w.active id = none → findVideo w id = some v → v.filepathExists = true →
      buildOutputUrl (orElseStr oR v.rtmpUrl) (orElseStr oK v.streamKey) = Except.error e →
      startStream w id oR oK = (w, Except.error e)) ∧
    (∀ (w : World) (su : String) (oR oK : Option String) (e : String),
      trimStr su ≠ "" → buildOutputUrl oR oK = Except.error e →
      startUrlStream w (some su) oR oK = (w, Except.error e)) := by
  refine ⟨?_, ?_, ?_, ?_⟩
  · intro ru sk
    constructor
    · rintro ⟨out, hout⟩
      match ru with
      | none => simp [buildOutputUrl] at hout
      | some r =>
        by_cases hr : isRtmpScheme r = true
        · match sk with
          | none => simp [buildOutputUrl, hr] at hout
          | some k =>
            by_cases hk : (trimData k).length < 8
            · simp [buildOutputUrl, hr, hk] at hout
            · exact ⟨⟨r, rfl, hr⟩, ⟨k, rfl, by omega⟩⟩
        · simp [buildOutputUrl, hr] at hout
    · rintro ⟨⟨r, rfl, hr⟩, ⟨k, rfl, hk⟩⟩
      refine ⟨if endsWithSlash r then r ++ k else r ++ "/" ++ k, ?_⟩
      simp [buildOutputUrl, hr, Nat.not_lt.mpr hk]
  · intro r k hr hk
    simp [buildOutputUrl, hr, Nat.not_lt.mpr hk]
  · intro w id oR oK v e hreg hv hfp hbuild
    simp [startStream, hreg, hv, hfp, hbuild]
  · intro w su oR oK e hsu hbuild
    unfold startUrlStream
    simp only [Option.getD_some]
    rw [if_neg hsu, hbuild]

/-- Witness: an undersized stored key is rejected by startStream with the
validation error and no state change. -/
theorem buildOutputUrl_validation_wit :
    startStream exBadKeyW "vb" none none = (exBadKeyW, Except.error "Invalid stream key") :=
  buildOutputUrl_validation.2.2.1 exBadKeyW "vb" none none exBadKeyVideo
    "Invalid stream key" (by rfl) (by rfl) (by rfl) (by rfl)

/-! Lemmas about the tick when nothing is active: the stop sweeps are
identities, so the tick is the completion sweep followed by admission. -/

theorem stopStream_inactive (w : World) (id : String) (h : w.active = []) :
    stopStream w id true = (w, false) := by
  unfold stopStream
  rw [h]
  rfl

theorem stopExternalStream_inactive (w : World) (id : String) (h : w.active = []) :
    stopExternalStream w id = (w, false) := by
  unfold stopExternalStream
  rw [h]
  rfl

theorem videoStopSweep_inactive (w : World) (h : w.active = []) :
    videoStopSweep w = w := by
  unfold videoStopSweep
  generalize (w.videos.filter _) = l
  induction l generalizing w with
  | nil => rfl
  | cons v rest ih =>
    rw [List.foldl_cons, stopStream_inactive w v.vid h]
    exact ih w h

theorem jobStopSweep_inactive (w : World) (h : w.active = []) :
    jobStopSweep w = w := by
  unfold jobStopSweep
  generalize (w.jobs.filter _) = l
  induction l generalizing w with
  | nil => rfl
  | cons j rest ih =>
    rw [List.foldl_cons]
    cases hs : j.streamId with
    | none => exact ih w h
    | some sid =>
      show List.foldl _ ((stopExternalStream w sid).1) rest = w
      rw [stopExternalStream_inactive w sid h]
      exact ih w h

theorem completionSweep_active (w : World) :
    (playlistCompletionSweep w).active = w.active := rfl

theorem tick_zero_active (w : World) (h : w.active = []) :
    tick w = admission (playlistCompletionSweep w) := by
  unfold tick
  simp only [videoStopSweep_inactive w h, jobStopSweep_inactive w h, completionSweep_active, h,
    List.length_nil, if_pos rfl, if_true]

/-- C5: on a tick with zero active jobs the tick runs the playlist-completion
sweep (first conjunct), and the sweep resolves every running playlist whose
cursor has reached or passed the end of its item list: with loop set the
cursor is reset to 0 and the status stays running (never completed), without
loop the status becomes completed with an end timestamp. -/
theorem playlist_completion_sweep_resolution :
    (∀ w : World, w.active = [] → tick w = admission (playlistCompletionSweep w)) ∧
    (∀ (w : World) (pl : PlaylistDoc), pl ∈ w.playlists → pl.status = PStatus.running →
      pl.videos.length ≤ pl.currentIndex →
      sweepOne w.now pl =
        (if pl.loop then { pl with currentIndex := 0 }
         else { pl with status := PStatus.completed, streamEndedAt := some w.now }) ∧
      sweepOne w.now pl ∈ (playlistCompletionSweep w).playlists ∧
      (pl.loop = true → (sweepOne w.now pl).status = PStatus.running ∧
        (sweepOne w.now pl).currentIndex = 0) ∧
      (pl.loop = false → (sweepOne w.now pl).status = PStatus.completed ∧
        (sweepOne w.now pl).streamEndedAt = some w.now)) := by
  constructor
  · exact tick_zero_active
  · intro w pl hmem hrun hdone
    have hres : sweepOne w.now pl =
        (if pl.loop then { pl with currentIndex := 0 }
         else { pl with status := PStatus.completed, streamEndedAt := some w.now }) := by
      unfold sweepOne
      rw [if_pos ⟨hrun, hdone⟩]
    refine ⟨hres, List.mem_map_of_mem _ hmem, ?_, ?_⟩
    · intro hloop
      rw [hres, if_pos hloop]
      exact ⟨hrun, rfl⟩
    · intro hloop
      rw [hres, if_neg (by rw [hloop]; exact Bool.false_ne_true)]
      exact ⟨rfl, rfl⟩

/-- Witness: a zero-active tick runs the sweep, and the finished looping
playlist is reset to index 0 while staying running. -/
theorem playlist_completion_sweep_resolution_wit :
    tick exSweepW = admission (playlistCompletionSweep exSweepW) ∧
    sweepOne 10 exLoopDoneP = { exLoopDoneP with currentIndex := 0 } ∧
    (sweepOne 10 exLoopDoneP).status = PStatus.running := by
  refine ⟨playlist_completion_sweep_resolution.1 exSweepW rfl, ?_, ?_⟩
  · have h := (playlist_completion_sweep_resolution.2 exSweepW exLoopDoneP
      (by decide) rfl (by decide)).1
    exact h.trans (by decide)
  · exact (playlist_completion_sweep_resolution.2 exSweepW exLoopDoneP
      (by decide) rfl (by decide)).2.2.1 rfl |>.1

/-! At-most-one-admission lemmas: every branch of the admission chain starts
at most one stream per tick. -/

theorem admission2d_le (w : World) : ((admission2d w).2).length ≤ 1 := by
  unfold admission2d
  cases hj : dueJobSel w with
  | none => simp
  | some j =>
    rcases hs : startUrlStream w (some j.sourceUrl) (some j.rtmpUrl) (some j.streamKey)
      with ⟨w1, r⟩
    cases r <;> simp [hs]

theorem admission2c_le (w : World) : ((admission2c w).2).length ≤ 1 := by
  unfold admission2c
  cases hv : dueVideoSel w with
  | none => exact admission2d_le w
  | some v =>
    rcases hs : startStream w v.vid none none with ⟨w1, r⟩
    cases r <;> simp [hs]

theorem admission2b_le (w : World) : ((admission2b w).2).length ≤ 1 := by
  unfold admission2b
  cases hp : duePlaylistSel w with
  | none => exact admission2c_le w
  | some pl =>
    dsimp only
    by_cases hl : 0 < pl.videos.length
    · rw [if_pos hl]
      rcases hs : startStream (markPlaylistRunning w pl) (firstItemId pl) pl.rtmpUrl pl.streamKey
        with ⟨w2, r⟩
      cases r <;> simp [hs, admission2c_le]
    · rw [if_neg hl]
      exact admission2c_le (markPlaylistRunning w pl)

theorem admission_le (w : World) : ((admission w).2).length ≤ 1 := by
  unfold admission
  cases hp : runningPlaylistSel w with
  | none => exact admission2b_le w
  | some pl =>
    dsimp only
    by_cases hl : pl.currentIndex < pl.videos.length
    · rw [if_pos hl]
      rcases hs : startStream w (pl.videos.getD pl.currentIndex "") pl.rtmpUrl pl.streamKey
        with ⟨w1, r⟩
      cases r <;> simp [hs, admission2b_le]
    · rw [if_neg hl]
      exact admission2b_le w

theorem tick_le (w : World) : ((tick w).2).length ≤ 1 := by
  unfold tick
  by_cases h : (if (jobStopSweep (videoStopSweep w)).active.length = 0
      then playlistCompletionSweep (jobStopSweep (videoStopSweep w))
      else jobStopSweep (videoStopSweep w)).active.length = 0
  · rw [if_pos h]
    exact admission_le _
  · rw [if_neg h]
    simp

/-- C4: every tick starts at most one stream (first conjunct, over all
worlds), and the stop sweep runs before the admission step: on the concrete
world with an expired streaming video and a due scheduled one, a single tick
both cancels the old stream and admits the new one — possible only because
the sweep freed the registry before admission ran. -/
theorem tick_single_admission_after_stop_sweep :
    (∀ w : World, ((tick w).2).length ≤ 1) ∧
    (tick exStopStartW).2 = ["new"] ∧
    ((findVideo (tick exStopStartW).1 "old").map VideoDoc.status = some VStatus.cancelled) ∧
    ((findVideo (tick exStopStartW).1 "new").map VideoDoc.status = some VStatus.streaming) :=
  ⟨tick_le, by decide, by decide, by decide⟩

/-- Side-effect footprint of startStream on the persisted playlists: none.
Both its failure paths and its success path touch only the video collection
and the registry. -/
theorem startStream_playlists (w : World) (id : String) (oR oK : Option String) :
    ((startStream w id oR oK).1).playlists = w.playlists := by
  unfold startStream startRun
  repeat' split
  all_goals rfl

/-- C2 (counterexample): a tick on exFallthroughW — running playlist whose
next item has a missing backing file, plus a due stand-alone video — attempts
the playlist item, which throws; the catch only logs, so the tick falls
through and starts the stand-alone video in the same tick, and neither the
playlist nor its item is marked failed. -/
theorem tick_fallthrough_after_failed_attempt :
    ((findVideo (tick exFallthroughW).1 "v2").map VideoDoc.status = some VStatus.streaming) ∧
    ((findPlaylist (tick exFallthroughW).1 "p").map PlaylistDoc.status = some PStatus.running) ∧
    ((findVideo (tick exFallthroughW).1 "v1").map VideoDoc.status = some VStatus.scheduled) ∧
    ((findVideo (tick exFallthroughW).1 "v1").map VideoDoc.errorMessage = some none) ∧
    (tick exFallthroughW).2 = ["v2"] := by
  refine ⟨by decide, by decide, by decide, by decide, by decide⟩

/-- C2 (amended): a failed launch of the due stand-alone video (step 2c) or
of the due external job (step 2d) marks exactly that record failed with the
captured reason and ends the tick's admissions; but a failed launch of a
running playlist's next item (step 2a) or of a due playlist's first item
(step 2b) performs no failed-marking — the playlist collection is unchanged —
and control falls through to the next admission candidate in the same tick. -/
theorem admission_failure_handling :
    (∀ (w : World) (v : VideoDoc) (w1 : World) (msg : String),
      dueVideoSel w = some v →
      startStream w v.vid none none = (w1, Except.error msg) →
      admission2c w =
        (updVideo w1 v.vid (fun x => { x with
          status := VStatus.failed, errorMessage := some msg, streamEndedAt := some w.now }),
         [])) ∧
    (∀ (w : World) (j : JobDoc) (w1 : World) (msg : String),
      dueJobSel w = some j →
      startUrlStream w (some j.sourceUrl) (some j.rtmpUrl) (some j.streamKey) =
        (w1, Except.error msg) →
      admission2d w =
        (updJob w1 j.jid (fun x => { x with
          status := VStatus.failed, errorMessage := some msg, endedAt := some w.now }),
         [])) ∧
    (∀ (w : World) (pl : PlaylistDoc) (w1 : World) (msg : String),
      runningPlaylistSel w = some pl →
      pl.currentIndex < pl.videos.length →
      startStream w (pl.videos.getD pl.currentIndex "") pl.rtmpUrl pl.streamKey =
        (w1, Except.error msg) →
      admission w = admission2b w1 ∧ w1.playlists = w.playlists) ∧
    (∀ (w : World) (pl : PlaylistDoc) (w2 : World) (msg : String),
      duePlaylistSel w = some pl →
      0 < pl.videos.length →
      startStream (markPlaylistRunning w pl) (firstItemId pl) pl.rtmpUrl pl.streamKey =
        (w2, Except.error msg) →
      admission2b w = admission2c w2) := by
  refine ⟨?_, ?_, ?_, ?_⟩
  · intro w v w1 msg hsel hstart
    unfold admission2c
    rw [hsel]
    dsimp only
    rw [hstart]
  · intro w j w1 msg hsel hstart
    unfold admission2d
    rw [hsel]
    dsimp only
    rw [hstart]
  · intro w pl w1 msg hsel hlt hstart
    constructor
    · unfold admission
      rw [hsel]
      dsimp only
      rw [if_pos hlt, hstart]
    · have h := startStream_playlists w (pl.videos.getD pl.currentIndex "") pl.rtmpUrl pl.streamKey
      rw [hstart] at h
      exact h
  · intro w pl w2 msg hsel hlen hstart
    unfold admission2b
    rw [hsel]
    dsimp only
    rw [if_pos hlen, hstart]

/-- Witness: the due stand-alone video with a missing file is marked failed
with the captured reason, and no external job is attempted afterwards. -/
theorem admission_failure_handling_wit :
    admission2c exDueBadW =
      (updVideo exDueBadW "v3" (fun x => { x with
        status := VStatus.failed, errorMessage := some "Video file not found on disk",
        streamEndedAt := some 10 }), []) :=
  admission_failure_handling.1 exDueBadW
    { vid := "v3"
      filepathExists := false
      scheduleTime := some 2
      status := VStatus.scheduled
      rtmpUrl := some "rtmp://a.example/live"
      streamKey := some "abcdefgh" }
    exDueBadW "Video file not found on disk" (by decide) (by rfl)

/-! Footprint lemmas for the cursor-invariant proof: none of the stream
operations or stop sweeps touches the playlist collection. -/

theorem stopStream_playlists (w : World) (id : String) (wok : Bool) :
    ((stopStream w id wok).1).playlists = w.playlists := by
  unfold stopStream
  repeat' split
  all_goals rfl

theorem stopExternalStream_playlists (w : World) (id : String) :
    ((stopExternalStream w id).1).playlists = w.playlists := by
  unfold stopExternalStream
  repeat' split
  all_goals rfl

theorem videoStopSweep_playlists (w : World) :
    (videoStopSweep w).playlists = w.playlists := by
  unfold videoStopSweep
  generalize (w.videos.filter _) = l
  induction l generalizing w with
  | nil => rfl
  | cons v rest ih =>
    rw [List.foldl_cons, ih, stopStream_playlists]

theorem jobStopSweep_playlists (w : World) :
    (jobStopSweep w).playlists = w.playlists := by
  unfold jobStopSweep
  generalize (w.jobs.filter _) = l
  induction l generalizing w with
  | nil => rfl
  | cons j rest ih =>
    rw [List.foldl_cons, ih]
    cases j.streamId with
    | none => rfl
    | some sid => exact stopExternalStream_playlists w sid

theorem startUrlStream_playlists (w : World) (su oR oK : Option String) :
    ((startUrlStream w su oR oK).1).playlists = w.playlists := by
  unfold startUrlStream
  dsimp only
  repeat' split
  all_goals rfl

/-! Cursor-invariant machinery. -/

theorem firstMinBy_mem {α : Type} (key : α → Nat) (l : List α) (x : α)
    (h : firstMinBy key l = some x) : x ∈ l := by
  induction l with
  | nil => simp [firstMinBy] at h
  | cons a rest ih =>
    unfold firstMinBy at h
    cases hr : firstMinBy key rest with
    | none =>
      rw [hr] at h
      dsimp only at h
      cases h
      exact List.mem_cons_self _ _
    | some y =>
      rw [hr] at h
      dsimp only at h
      by_cases hk : key a ≤ key y
      · rw [if_pos hk] at h
        cases h
        exact List.mem_cons_self _ _
      · rw [if_neg hk] at h
        cases h
        exact List.mem_cons_of_mem a (ih hr)

theorem runningPlaylistSel_mem (w : World) (pl : PlaylistDoc)
    (h : runningPlaylistSel w = some pl) : pl ∈ w.playlists := by
  have hm := firstMinBy_mem _ _ _ h
  exact (List.mem_filter.mp hm).1

theorem duePlaylistSel_mem (w : World) (pl : PlaylistDoc)
    (h : duePlaylistSel w = some pl) : pl ∈ w.playlists := by
  have hm := firstMinBy_mem _ _ _ h
  exact (List.mem_filter.mp hm).1

theorem updPlaylist_inv (w : World) (id : String) (f : PlaylistDoc → PlaylistDoc)
    (hInv : CursorInv w)
    (h : ∀ p ∈ w.playlists, (p.pid == id) = true →
      (f p).currentIndex ≤ (f p).videos.length) :
    CursorInv (updPlaylist w id f) := by
  intro q hq
  rcases List.mem_map.mp hq with ⟨p, hp, rfl⟩
  by_cases hc : (p.pid == id) = true
  · rw [if_pos hc]
    exact h p hp hc
  · rw [if_neg hc]
    exact hInv p hp

theorem updPlaylist_map_pid (w : World) (id : String) (f : PlaylistDoc → PlaylistDoc)
    (hf : ∀ p, (f p).pid = p.pid) :
    (updPlaylist w id f).playlists.map PlaylistDoc.pid =
      w.playlists.map PlaylistDoc.pid := by
  unfold updPlaylist
  rw [List.map_map]
  apply List.map_congr_left
  intro p _
  by_cases hc : p.pid = id
  · simp [hc, hf]
  · simp [hc]

theorem sweepOne_pid (n : Nat) (pl : PlaylistDoc) : (sweepOne n pl).pid = pl.pid := by
  unfold sweepOne
  repeat' split
  all_goals rfl

theorem sweepOne_inv (n : Nat) (pl : PlaylistDoc)
    (h : pl.currentIndex ≤ pl.videos.length) :
    (sweepOne n pl).currentIndex ≤ (sweepOne n pl).videos.length := by
  unfold sweepOne
  repeat' split
  · exact Nat.zero_le _
  · exact h
  · exact h

theorem completionSweep_inv (w : World) (hInv : CursorInv w) :
    CursorInv (playlistCompletionSweep w) := by
  intro q hq
  rcases List.mem_map.mp hq with ⟨p, hp, rfl⟩
  exact sweepOne_inv w.now p (hInv p hp)

theorem completionSweep_map_pid (w : World) :
    (playlistCompletionSweep w).playlists.map PlaylistDoc.pid =
      w.playlists.map PlaylistDoc.pid := by
  unfold playlistCompletionSweep
  rw [List.map_map]
  apply List.map_congr_left
  intro p _
  exact sweepOne_pid w.now p

theorem admission2d_playlists (w : World) : ((admission2d w).1).playlists = w.playlists := by
  unfold admission2d
  cases hj : dueJobSel w with
  | none => rfl
  | some j =>
    rcases hs : startUrlStream w (some j.sourceUrl) (some j.rtmpUrl) (some j.streamKey)
      with ⟨w1, r⟩
    have hp : w1.playlists = w.playlists := by
      have h := startUrlStream_playlists w (some j.sourceUrl) (some j.rtmpUrl) (some j.streamKey)
      rw [hs] at h
      exact h
    cases r with
    | ok sid => simp [hs, updJob, hp]
    | error msg => simp [hs, updJob, hp]

theorem admission2c_playlists (w : World) : ((admission2c w).1).playlists = w.playlists := by
  unfold admission2c
  cases hv : dueVideoSel w with
  | none => exact admission2d_playlists w
  | some v =>
    rcases hs : startStream w v.vid none none with ⟨w1, r⟩
    have hp : w1.playlists = w.playlists := by
      have h := startStream_playlists w v.vid none none
      rw [hs] at h
      exact h
    cases r with
    | ok u => simp [hs, hp]
    | error msg => simp [hs, updVideo, hp]

theorem markPlaylistRunning_inv (w : World) (pl : PlaylistDoc) (hInv : CursorInv w) :
    CursorInv (markPlaylistRunning w pl) := by
  apply updPlaylist_inv _ _ _ hInv
  intro p hp2 _
  exact hInv p hp2

theorem markPlaylistRunning_videos (w : World) (pl p : PlaylistDoc)
    (hnd : (w.playlists.map PlaylistDoc.pid).Nodup) (hmem : pl ∈ w.playlists)
    (hp : p ∈ (markPlaylistRunning w pl).playlists) (hc : p.pid = pl.pid) :
    p.videos = pl.videos := by
  rcases List.mem_map.mp hp with ⟨x, hx, rfl⟩
  by_cases h : (x.pid == pl.pid) = true
  · rw [if_pos h]
    have hx2 : x = pl := List.inj_on_of_nodup_map hnd hx hmem (by simpa using h)
    rw [hx2]
  · rw [if_neg h] at hc ⊢
    exact absurd (by simp [hc]) h

theorem admission2b_inv (w : World)
    (hnd : (w.playlists.map PlaylistDoc.pid).Nodup) (hInv : CursorInv w) :
    CursorInv ((admission2b w).1) := by
  unfold admission2b
  cases hp : duePlaylistSel w with
  | none =>
    show CursorInv ((admission2c w).1)
    intro q hq
    rw [admission2c_playlists] at hq
    exact hInv q hq
  | some pl =>
    dsimp only
    have hplmem := duePlaylistSel_mem w pl hp
    have hInv1 : CursorInv (markPlaylistRunning w pl) := markPlaylistRunning_inv w pl hInv
    by_cases hl : 0 < pl.videos.length
    · rw [if_pos hl]
      rcases hs : startStream (markPlaylistRunning w pl) (firstItemId pl) pl.rtmpUrl pl.streamKey
        with ⟨w2, r⟩
      have hw2 : w2.playlists = (markPlaylistRunning w pl).playlists := by
        have h := startStream_playlists (markPlaylistRunning w pl) (firstItemId pl)
          pl.rtmpUrl pl.streamKey
        rw [hs] at h
        exact h
      cases r with
      | error msg =>
        show CursorInv ((admission2c w2).1)
        intro q hq
        rw [admission2c_playlists, hw2] at hq
        exact hInv1 q hq
      | ok u =>
        show CursorInv (updPlaylist w2 pl.pid
          (fun p => { p with currentIndex := 1, updatedAt := w2.now }))
        apply updPlaylist_inv
        · intro q hq
          rw [hw2] at hq
          exact hInv1 q hq
        · intro p hpmem hc
          dsimp only
          rw [hw2] at hpmem
          have hv : p.videos = pl.videos :=
            markPlaylistRunning_videos w pl p hnd hplmem hpmem (by simpa using hc)
          rw [hv]
          exact hl
    · rw [if_neg hl]
      show CursorInv ((admission2c (markPlaylistRunning w pl)).1)
      intro q hq
      rw [admission2c_playlists] at hq
      exact hInv1 q hq

theorem admission_inv (w : World)
    (hnd : (w.playlists.map PlaylistDoc.pid).Nodup) (hInv : CursorInv w) :
    CursorInv ((admission w).1) := by
  unfold admission
  cases hp : runningPlaylistSel w with
  | none => exact admission2b_inv w hnd hInv
  | some pl =>
    dsimp only
    have hplmem := runningPlaylistSel_mem w pl hp
    by_cases hl : pl.currentIndex < pl.videos.length
    · rw [if_pos hl]
      rcases hs : startStream w (pl.videos.getD pl.currentIndex "") pl.rtmpUrl pl.streamKey
        with ⟨w1, r⟩
      have hw1 : w1.playlists = w.playlists := by
        have h := startStream_playlists w (pl.videos.getD pl.currentIndex "")
          pl.rtmpUrl pl.streamKey
        rw [hs] at h
        exact h
      cases r with
      | error msg =>
        show CursorInv ((admission2b w1).1)
        have hnd1 : (w1.playlists.map PlaylistDoc.pid).Nodup := by rw [hw1]; exact hnd
        have hInv1 : CursorInv w1 := by
          intro q hq
          rw [hw1] at hq
          exact hInv q hq
        exact admission2b_inv w1 hnd1 hInv1
      | ok u =>
        show CursorInv (updPlaylist w1 pl.pid
          (fun p => { p with currentIndex := pl.currentIndex + 1, updatedAt := w1.now }))
        apply updPlaylist_inv
        · intro q hq
          rw [hw1] at hq
          exact hInv q hq
        · intro p hpmem hc
          dsimp only
          rw [hw1] at hpmem
          have hx : p = pl := List.inj_on_of_nodup_map hnd hpmem hplmem (by simpa using hc)
          rw [hx]
          exact hl
    · rw [if_neg hl]
      exact admission2b_inv w hnd hInv

/-- C9: a scheduling-loop tick preserves the PlaylistCursor invariant
0 <= currentIndex <= length (the lower bound is inherent in Nat): the loop
reset writes 0, the 2a increment is guarded by cursor < length, and the 2b
promotion writes 1 only on a playlist with at least one item.  Playlist ids
are pairwise distinct, as Mongo `_id`s are. -/
theorem tick_preserves_cursor_invariant :
    ∀ w : World, (w.playlists.map PlaylistDoc.pid).Nodup →
      (∀ pl ∈ w.playlists, pl.currentIndex ≤ pl.videos.length) →
      ∀ pl ∈ (tick w).1.playlists, pl.currentIndex ≤ pl.videos.length := by
  intro w hnd hInv
  have h2p : (jobStopSweep (videoStopSweep w)).playlists = w.playlists := by
    rw [jobStopSweep_playlists, videoStopSweep_playlists]
  have hnd2 : ((jobStopSweep (videoStopSweep w)).playlists.map PlaylistDoc.pid).Nodup := by
    rw [h2p]
    exact hnd
  have hInv2 : CursorInv (jobStopSweep (videoStopSweep w)) := by
    intro q hq
    rw [h2p] at hq
    exact hInv q hq
  have hndS : ((playlistCompletionSweep
      (jobStopSweep (videoStopSweep w))).playlists.map PlaylistDoc.pid).Nodup := by
    rw [completionSweep_map_pid]
    exact hnd2
  have hInvS : CursorInv (playlistCompletionSweep (jobStopSweep (videoStopSweep w))) :=
    completionSweep_inv _ hInv2
  unfold tick
  dsimp only
  by_cases h0 : (jobStopSweep (videoStopSweep w)).active.length = 0
  · rw [if_pos h0, if_pos (by rw [completionSweep_active]; exact h0)]
    exact admission_inv _ hndS hInvS
  · rw [if_neg h0, if_neg h0]
    exact hInv2

/-- Witness: the concrete fallthrough world satisfies the invariant before
and after its tick. -/
theorem tick_preserves_cursor_invariant_wit :
    exRunP.currentIndex ≤ exRunP.videos.length :=
  tick_preserves_cursor_invariant exFallthroughW (by decide) (by decide) exRunP (by decide)
